import Mathlib

/-!
Verification development for the `wsl` training driver
(`wsl/run/train.py` together with `wsl/locations.py`).

The file shallow-embeds the orchestration logic of `main` in
`wsl/run/train.py`: the run-name builder, the random-word name
generation with its timestamp fallback, checkpoint creation with
optimizer validation, the epoch loop with patience-based early
stopping and debug short-circuit, per-epoch persistence bookkeeping,
and the final `configs.json` record.

Modelling conventions:
* Python floats (losses, metrics, learning rate, alpha) are modelled
  as rationals; the loop logic only stores and compares them.
* The external collaborators (`Loader`, `DataLoader`, `Architecture`,
  `engine`, `torch`, `matplotlib`) are opaque to the orchestrator.
  The per-epoch outputs of `engine` (loss, rmetric, summary string)
  are inputs of the model, one triple per epoch index and pass kind,
  which covers every possible behaviour of the real engine.
* Filesystem effects are recorded as bookkeeping data (counters and
  lists of written artifacts) rather than performed.
* Python exceptions are modelled with `Except`; a Python run that
  raises an uncaught exception is an `Except.error` value.
* Python list indexing (`xs[i]`) is modelled by `pyGet`, including
  negative-index-from-the-end semantics and `IndexError` (`none`)
  when out of range.
-/

/-- Python exception kinds raised (or raisable) by `wsl/run/train.py`. -/
inductive PyErr where
  /-- `TypeError`, e.g. `len()` or subscripting applied to a generator. -/
  | typeError : PyErr
  /-- `NameError`: a local variable referenced before assignment. -/
  | nameError : PyErr
  /-- `ValueError` with its message, raised for unsupported optimizer names
      (train.py line 128). -/
  | valueError : String → PyErr
  /-- `IndexError` from an out-of-range sequence subscript. -/
  | indexError : PyErr
  /-- `AssertionError` from a failed `assert`. -/
  | assertionError : PyErr
  /-- any exception raised by `requests.get` (network failure). -/
  | requestError : PyErr
  /-- exception raised by `response.json()` when the body does not parse. -/
  | jsonError : PyErr
  deriving DecidableEq, Repr

/-- Python sequence subscript `xs[i]` for `int` indices: a negative index
counts from the end; an index out of range raises `IndexError`, modelled
as `none`. -/
def pyGet {α : Type} (l : List α) (i : Int) : Option α :=
  let j : Int := if i < 0 then (l.length : Int) + i else i
  if 0 ≤ j then l[j.toNat]? else none

/-- Decimal digit characters; any argument above nine is clamped to `'9'`
(the clamp is never reached by the renderings below on their call sites,
and keeps the character set of every rendering provably numeric). -/
def digitChar : Nat → Char
  | 0 => '0' | 1 => '1' | 2 => '2' | 3 => '3' | 4 => '4'
  | 5 => '5' | 6 => '6' | 7 => '7' | 8 => '8' | _ => '9'

/-- Fuel-driven decimal rendering of a natural number, most significant
digit first. The fuel bounds the number of digits; `natChars` supplies
enough of it. -/
def natCharsAux : Nat → Nat → List Char
  | 0, _ => []
  | fuel + 1, n =>
    if n < 10 then [digitChar n]
    else natCharsAux fuel (n / 10) ++ [digitChar (n % 10)]

/-- Decimal character rendering of a natural number, as Python `str(int)`
produces it. -/
def natChars (n : Nat) : List Char :=
  natCharsAux (n + 1) n

/-- Decimal string of a natural number (Python `str` on a non-negative
`int`). -/
def natRepr (n : Nat) : String :=
  ⟨natChars n⟩

/-- Fractional decimal digits of `n / d` (with `n < d` at every call
site), fuel-limited, stopping when the remainder is exhausted. -/
def fracChars : Nat → Nat → Nat → List Char
  | 0, _, _ => []
  | fuel + 1, n, d =>
    if n = 0 then []
    else digitChar (n * 10 / d) :: fracChars fuel (n * 10 % d) d

/-- Rendering of a rational number standing in for Python's float
formatting inside f-strings. The development relies only on its
characters being digits, `'.'` and `'-'`, never on the exact digits. -/
def ratRepr (q : ℚ) : String :=
  ⟨(if q.num < 0 then ['-'] else []) ++
    natChars (q.num.natAbs / q.den) ++
    (let fr := fracChars 30 (q.num.natAbs % q.den) q.den
     if fr.isEmpty then [] else '.' :: fr)⟩

/-- Timestamp fields used by `datetime.now().strftime` in train.py. -/
structure Timestamp where
  day : Nat
  month : Nat
  hour : Nat
  minute : Nat
  second : Nat
  deriving DecidableEq, Repr

/-- Two-digit zero-padded field, as `strftime` renders each of
`%d %m %H %M %S`. -/
def pad2 (n : Nat) : String :=
  if n < 10 then "0" ++ natRepr n else natRepr n

/-- The fallback name `datetime.datetime.now().strftime('%d_%m_%H_%M_%S')`
(train.py line 56). -/
def fmtTimestamp (t : Timestamp) : String :=
  pad2 t.day ++ "_" ++ pad2 t.month ++ "_" ++ pad2 t.hour ++ "_" ++
    pad2 t.minute ++ "_" ++ pad2 t.second

/-- Outcome of the `requests.get` call against the random-word service:
either the request itself fails, or a response arrives with a status
code and a body that parses to a list of words or fails to parse. -/
inductive NameResult where
  | netError : NameResult
  | response : Nat → Except Unit (List String) → NameResult

/-- Body of the `try:` block of train.py lines 50-53: get the response,
assert status 200, parse the body, take element 0. Each failure raises
the corresponding exception. -/
def tryGetWord (r : NameResult) : Except PyErr String :=
  match r with
  | .netError => .error .requestError
  | .response status body =>
    if status = 200 then
      match body with
      | .error _ => .error .jsonError
      | .ok l =>
        match pyGet l 0 with
        | some w => .ok w
        | none => .error .indexError
    else .error .assertionError

/-- Name-token generation (train.py lines 49-56): the `try/except` catches
every exception and falls back to the formatted current time. -/
def genMname (r : NameResult) (now : Timestamp) : String :=
  match tryGetWord r with
  | .ok w => w
  | .error _ => fmtTimestamp now

/-- The run-name builder of train.py lines 58-65, concatenating the
debug prefix, dataset, column, lr/batch-size/optimizer tag, pretrained
and balanced tags, network+depth, the optional wildcat block, and the
name token. -/
def fullMname (debug : Bool) (data col_name : String) (lr : ℚ)
    (batchsize : Nat) (optim : String) (pretrained balanced : Bool)
    (network : String) (depth : Nat) (wildcat : Bool) (maps : Nat)
    (alpha : ℚ) (k : Nat) (mname : String) : String :=
  (if debug then "debug_" else "") ++
  data ++ "_" ++ col_name ++ "_" ++
  ("lr" ++ ratRepr lr ++ "_bs" ++ natRepr batchsize ++ "_" ++ optim) ++
  (if pretrained then "_pre" else "") ++
  (if balanced then "_bal" else "") ++ "_" ++
  (network ++ natRepr depth) ++
  (if wildcat then
    "_wildcat_maps" ++ natRepr maps ++ "_alpha" ++ ratRepr alpha ++
      "_k" ++ natRepr k
   else "") ++ "_" ++
  mname

/-- `wsl_model_dir` from `wsl/locations.py` line 23. -/
def wsl_model_dir : String := "/mnt/out/models"

/-- The value returned by `Path.glob`: a lazy generator over the matching
paths. Generators implement neither `__len__` nor `__getitem__`. -/
structure PathGlob where
  found : List String

/-- `Path.glob` (train.py lines 46-47) returns a generator. -/
def pathGlob (found : List String) : PathGlob :=
  ⟨found⟩

/-- Python `len()` applied to the generator returned by `Path.glob`:
generators define no `__len__`, so this raises `TypeError` regardless of
how many paths match. -/
def globLen (_g : PathGlob) : Except PyErr Nat :=
  .error .typeError

/-- Python subscripting (`[0]`) applied to the generator returned by
`Path.glob`: generators define no `__getitem__`, so this raises
`TypeError`. -/
def globGetItem (_g : PathGlob) (_i : Nat) : Except PyErr String :=
  .error .typeError

/-- Criterion chosen at checkpoint creation (train.py lines 112-117). -/
inductive CriterionKind where
  | mseLoss : CriterionKind
  | weightedBceLoss : CriterionKind
  | bceLoss : CriterionKind
  deriving DecidableEq, Repr

/-- Criterion selection of train.py lines 112-117: MSE for regression,
positively-weighted BCE for balanced, plain BCE otherwise. -/
def selectCriterion (regression balanced : Bool) : CriterionKind :=
  if regression then .mseLoss
  else if balanced then .weightedBceLoss
  else .bceLoss

/-- Optimizer kinds constructible by train.py lines 123-128. -/
inductive OptimizerKind where
  | sgd : OptimizerKind
  | adam : OptimizerKind
  deriving DecidableEq, Repr

/-- Optimizer selection of train.py lines 123-128: `'sgd'` and `'adam'`
build an optimizer; any other name raises
`ValueError(f':optim: is not supported')`. -/
def selectOptimizer (optim : String) : Except PyErr OptimizerKind :=
  if optim = "sgd" then .ok .sgd
  else if optim = "adam" then .ok .adam
  else .error (.valueError (optim ++ " is not supported"))

/-- The mutable checkpoint dictionary of train.py lines 130-140,
restricted to the fields the orchestration logic reads and writes.
The model, optimizer and criterion objects it also holds are opaque
framework state with no bearing on the control flow. -/
structure Checkpoint where
  epoch : Nat
  loss : ℚ
  train_loss_all : List ℚ
  test_loss_all : List ℚ
  train_rmetric_all : List ℚ
  test_rmetric_all : List ℚ
  deriving DecidableEq, Repr

/-- The fresh checkpoint of train.py lines 130-140: epoch 0, sentinel
loss 100, empty histories. -/
def initCheckpoint : Checkpoint :=
  { epoch := 0, loss := 100, train_loss_all := [], test_loss_all := [],
    train_rmetric_all := [], test_rmetric_all := [] }

/-- Aggregate result of one `engine` pass: the returned loss, rmetric
and human-readable summary string. -/
structure EngineResult where
  loss : ℚ
  rmetric : ℚ
  summary : String
  deriving DecidableEq, Repr

/-- One epoch block appended to `summary.txt` (train.py line 177). -/
def summaryBlock (epoch : Nat) (summary_train summary_test : String) :
    String :=
  "Epoch: " ++ natRepr epoch ++ " \n Train:" ++ summary_train ++
    " \n Test:" ++ summary_test

/-- State carried across iterations of the epoch loop: the checkpoint,
the caller's best-epoch bookkeeping (train.py lines 142-143, 167-173),
and a record of the filesystem artifacts written so far (`current.pt`
save count, the epochs at which `best.pt` was written, the blocks
appended to `summary.txt`, and the number of `graphs.png` writes). -/
structure LoopState where
  cp : Checkpoint
  best_epoch : Nat
  best_loss : ℚ
  currentSaves : Nat
  bestSaves : List Nat
  summaryBlocks : List String
  graphsWrites : Nat
  deriving DecidableEq, Repr

/-- Loop-state initialisation of train.py lines 142-143: best epoch and
best loss are captured from the checkpoint, no artifact written yet. -/
def initLoopState (cp : Checkpoint) : LoopState :=
  { cp := cp, best_epoch := cp.epoch, best_loss := cp.loss,
    currentSaves := 0, bestSaves := [], summaryBlocks := [],
    graphsWrites := 0 }

/-- The loop condition of train.py line 147, evaluated before the epoch
counter is incremented:
`(checkpoint['epoch'] - best_epoch <= patience) and checkpoint['epoch'] < 500`.
The subtraction is on Python ints, hence over `Int`. -/
def loopCond (patience : Int) (st : LoopState) : Bool :=
  decide ((st.cp.epoch : Int) - (st.best_epoch : Int) ≤ patience) &&
    decide (st.cp.epoch < 500)

/-- The loop body of train.py lines 148-193 for one epoch: increment the
epoch counter, run the train pass then the eval pass appending to the
four histories, save `current.pt`, save `best.pt` and update the
best-epoch bookkeeping exactly when the eval loss strictly improves,
append the epoch block to `summary.txt`, and rewrite `graphs.png`.
`tr n` and `te n` are the engine results of the train and eval passes
of epoch `n`. -/
def epochBody (tr te : Nat → EngineResult) (st : LoopState) : LoopState :=
  let e := st.cp.epoch + 1
  let rTr := tr e
  let rTe := te e
  let cp' : Checkpoint :=
    { epoch := e, loss := rTe.loss,
      train_loss_all := st.cp.train_loss_all ++ [rTr.loss],
      test_loss_all := st.cp.test_loss_all ++ [rTe.loss],
      train_rmetric_all := st.cp.train_rmetric_all ++ [rTr.rmetric],
      test_rmetric_all := st.cp.test_rmetric_all ++ [rTe.rmetric] }
  { cp := cp',
    best_epoch := if st.best_loss > rTe.loss then e else st.best_epoch,
    best_loss := if st.best_loss > rTe.loss then rTe.loss else st.best_loss,
    currentSaves := st.currentSaves + 1,
    bestSaves :=
      if st.best_loss > rTe.loss then st.bestSaves ++ [e] else st.bestSaves,
    summaryBlocks :=
      st.summaryBlocks ++ [summaryBlock e rTr.summary rTe.summary],
    graphsWrites := st.graphsWrites + 1 }

/-- The epoch loop of train.py lines 147-200. The fuel argument only
bounds the recursion; since every iteration requires
`checkpoint['epoch'] < 500` and increments the epoch, fuel 500 is never
exhausted while the condition still holds. In debug mode the loop body
runs and then `break` exits the loop (lines 197-200). -/
def runLoop (debug : Bool) (patience : Int) (tr te : Nat → EngineResult) :
    Nat → LoopState → LoopState
  | 0, st => st
  | fuel + 1, st =>
    if loopCond patience st then
      let st' := epochBody tr te st
      if debug then st' else runLoop debug patience tr te fuel st'
    else st

/-- The `configs` record written to `configs.json` (train.py
lines 202-225). Wildcat and regression sub-parameters are `None` when
the corresponding flag is off. -/
structure Configs where
  name : String
  time : String
  data : String
  column : String
  extension : String
  classes : Nat
  network : String
  depth : Nat
  wildcat : Bool
  pretrained : Bool
  optim : String
  learning_rate : ℚ
  batchsize : Nat
  balanced : Bool
  maps : Option Nat
  alpha : Option ℚ
  k : Option Nat
  regression : Bool
  error_range : Option Nat
  best_epoch : Nat
  best_loss : ℚ
  rmetric : ℚ
  deriving DecidableEq, Repr

/-- The parameters of `main` (train.py lines 20-41). -/
structure Args where
  debug : Bool
  data : String
  col_name : String
  extension : String
  classes : Nat
  network : String
  depth : Nat
  wildcat : Bool
  pretrained : Bool
  optim : String
  resume : Bool
  name : String
  lr : ℚ
  batchsize : Nat
  workers : Nat
  patience : Int
  balanced : Bool
  maps : Nat
  alpha : ℚ
  k : Nat
  regression : Bool
  error_range : Nat

/-- The external world `main` interacts with: the random-word service
outcome, the current time, the paths matching the resume glob, and the
engine results of each epoch's train and eval passes. -/
structure Env where
  nameService : NameResult
  now : Timestamp
  globMatches : List String
  tr : Nat → EngineResult
  te : Nat → EngineResult

/-- Construction of the final `configs` record (train.py lines 202-225).
The record's fields other than `rmetric` are copied from the arguments
and the final loop state. -/
def mkConfigsRecord (a : Args) (mname : String) (now : Timestamp)
    (st : LoopState) (r : ℚ) : Configs :=
  { name := mname, time := fmtTimestamp now, data := a.data,
    column := a.col_name, extension := a.extension,
    classes := a.classes, network := a.network, depth := a.depth,
    wildcat := a.wildcat, pretrained := a.pretrained,
    optim := a.optim, learning_rate := a.lr,
    batchsize := a.batchsize, balanced := a.balanced,
    maps := if a.wildcat then some a.maps else none,
    alpha := if a.wildcat then some a.alpha else none,
    k := if a.wildcat then some a.k else none,
    regression := a.regression,
    error_range := if a.regression then some a.error_range else none,
    best_epoch := st.best_epoch, best_loss := st.best_loss,
    rmetric := r }

/-- Construction of the final `configs` record, continued: the
subscript result feeds the `rmetric` field. -/
def mkConfigs (a : Args) (mname : String) (now : Timestamp)
    (st : LoopState) : Except PyErr Configs :=
  match pyGet st.cp.test_rmetric_all ((st.best_epoch : Int) - 1) with
  | none => .error .indexError
  | some r => .ok (mkConfigsRecord a mname now st r)

/-- Result of a completed run of `main`: the name token, the run
directory, the final loop state (checkpoint and artifact bookkeeping),
and the serialized `configs` record. -/
structure RunOutputs where
  mname : String
  model_dir : String
  final : LoopState
  configs : Configs

/-- Shallow embedding of `main` (train.py lines 20-228); named `mainRun`
because Lean reserves the name `main` for executables.

On the resume path (line 45) the code evaluates
`len(wsl_model_dir.glob(f'*:name:'))`, and `Path.glob` returns a lazy
generator, so `len` raises `TypeError` before any checkpoint is loaded;
were that to succeed, line 47 subscripts the same generator
(`TypeError` again), and the variables `mname` and `model_dir` are
never assigned on this branch, so the `print` of `mname` at line 68 —
the model's final `throw .nameError` — and the later uses of
`model_dir` in the loop would raise `NameError`.

On the fresh path, the name token is generated, the run name and model
directory are built, the criterion and optimizer are selected (an
unsupported optimizer name aborts here, before any epoch), the fresh
checkpoint is created, the epoch loop runs, and the final `configs`
record is built — after the loop, whether it ended by its condition or
by the debug break. -/
def mainRun (a : Args) (env : Env) : Except PyErr RunOutputs := do
  if a.resume then
    let n ← globLen (pathGlob env.globMatches)
    if n ≠ 1 then throw .assertionError
    let _full_mname ← globGetItem (pathGlob env.globMatches) 0
    throw .nameError
  else
    let mname := genMname env.nameService env.now
    let full_mname := fullMname a.debug a.data a.col_name a.lr
      a.batchsize a.optim a.pretrained a.balanced a.network a.depth
      a.wildcat a.maps a.alpha a.k mname
    let model_dir := wsl_model_dir ++ "/" ++ full_mname
    let _criterion := selectCriterion a.regression a.balanced
    let _optimizer ← selectOptimizer a.optim
    let st0 := initLoopState initCheckpoint
    let fin := runLoop a.debug a.patience env.tr env.te 500 st0
    let cfg ← mkConfigs a mname env.now fin
    pure { mname := mname, model_dir := model_dir, final := fin,
           configs := cfg }

/-- Binding an `Except.error` short-circuits (Python: an uncaught
exception aborts the rest of the function). -/
@[simp] theorem pyBind_error {e : PyErr} {α β : Type}
    (f : α → Except PyErr β) :
    (Except.error e >>= f : Except PyErr β) = Except.error e := rfl

/-- Binding an `Except.ok` continues with the bound value. -/
@[simp] theorem pyBind_ok {α β : Type} (a : α) (f : α → Except PyErr β) :
    (Except.ok a >>= f : Except PyErr β) = f a := rfl

/-- Mapping over an `Except.error` keeps the error. -/
@[simp] theorem pyMap_error {e : PyErr} {α β : Type} (g : α → β) :
    (g <$> (Except.error e : Except PyErr α)) = Except.error e := rfl

/-- Mapping over an `Except.ok` applies the function. -/
@[simp] theorem pyMap_ok {α β : Type} (g : α → β) (a : α) :
    (g <$> (Except.ok a : Except PyErr α)) = Except.ok (g a) := rfl

/-- `throw` is `Except.error`. -/
@[simp] theorem pyThrow {α : Type} (e : PyErr) :
    (throw e : Except PyErr α) = Except.error e := rfl

/-- The only exception `mkConfigs` can raise is the `IndexError` from
the `rmetric` subscript. -/
theorem mkConfigs_error {a : Args} {m : String} {now : Timestamp}
    {st : LoopState} {er : PyErr}
    (h : mkConfigs a m now st = .error er) : er = .indexError := by
  unfold mkConfigs at h
  cases hpg : pyGet st.cp.test_rmetric_all ((st.best_epoch : Int) - 1) <;>
    rw [hpg] at h <;> simp_all

/-- Projection: did the run complete without an uncaught exception? -/
def runIsOk (r : Except PyErr RunOutputs) : Bool :=
  match r with
  | .ok _ => true
  | .error _ => false

/-- Projection: the final `best_epoch` of a completed run. -/
def runBestEpoch (r : Except PyErr RunOutputs) : Option Nat :=
  match r with
  | .ok o => some o.final.best_epoch
  | .error _ => none

/-- Projection: the `rmetric` field of the serialized configs record. -/
def runRmetric (r : Except PyErr RunOutputs) : Option ℚ :=
  match r with
  | .ok o => some o.configs.rmetric
  | .error _ => none

/-- Projection: the final epoch counter of a completed run. -/
def runEpochCount (r : Except PyErr RunOutputs) : Option Nat :=
  match r with
  | .ok o => some o.final.cp.epoch
  | .error _ => none

/-- Projection: how many epoch blocks were appended to `summary.txt`. -/
def runSummaryCount (r : Except PyErr RunOutputs) : Option Nat :=
  match r with
  | .ok o => some o.final.summaryBlocks.length
  | .error _ => none

/-- A fixed engine trace used by concrete runs: train loss 2, train
rmetric 3; eval loss 150, eval rmetric 7, at every epoch. -/
def trFix : Nat → EngineResult := fun _ => ⟨2, 3, "t"⟩

/-- Eval-pass trace whose loss 150 exceeds the sentinel 100 at every
epoch, so no epoch ever improves on the initial best loss. -/
def teFix : Nat → EngineResult := fun _ => ⟨150, 7, "e"⟩

/-- Baseline argument record for concrete runs; individual claims
override the fields they exercise. -/
def baseArgs : Args :=
  { debug := false, data := "rsna", col_name := "Target",
    extension := "jpg", classes := 1, network := "densenet", depth := 121,
    wildcat := false, pretrained := false, optim := "sgd", resume := false,
    name := "x", lr := 1, batchsize := 32, workers := 4, patience := 0,
    balanced := false, maps := 4, alpha := 0, k := 1, regression := false,
    error_range := 0 }

/-- Baseline environment for concrete runs. -/
def baseEnv : Env :=
  { nameService := .netError, now := ⟨7, 3, 11, 22, 33⟩,
    globMatches := [], tr := trFix, te := teFix }

/-- C10: for every invocation of `main` with `resume=True`, execution
fails with a `TypeError` before any checkpoint is loaded, because
`len()` is applied to the lazy generator returned by `Path.glob`
(train.py line 46) — even when exactly one matching run directory
exists. (In the embedding, the rest of the resume branch also shows the
follow-on failures the claim names: subscripting the generator at line
47 would again raise `TypeError`, and the name token `mname` and
`model_dir` are never assigned on this branch, so the later uses would
raise `NameError`.) -/
theorem resume_always_typeError (a : Args) (env : Env)
    (h : a.resume = true) : mainRun a env = .error .typeError := by
  simp [mainRun, h, globLen, pathGlob]

/-- Witness for `resume_always_typeError`: a concrete resume invocation
with exactly one matching directory still raises `TypeError`. -/
theorem resume_always_typeError_witness :
    mainRun { baseArgs with resume := true }
      { baseEnv with globMatches := ["/mnt/out/models/run_x"] } =
      .error .typeError :=
  resume_always_typeError _ _ rfl

/-- C9: name generation is total over every outcome of the random-word
service call: network errors, non-200 statuses, parse failures and
empty word lists all fall back to the timestamp formatted as
day_month_hour_minute_second, and a 200 response with a parsed
non-empty word list yields its first word. No failure propagates: the
result is always a plain string. -/
theorem name_generation_total (r : NameResult) (now : Timestamp) :
    (r = .netError → genMname r now = fmtTimestamp now) ∧
    (∀ status body, status ≠ 200 → r = .response status body →
      genMname r now = fmtTimestamp now) ∧
    (∀ e, r = .response 200 (.error e) →
      genMname r now = fmtTimestamp now) ∧
    (r = .response 200 (.ok []) → genMname r now = fmtTimestamp now) ∧
    (∀ w ws, r = .response 200 (.ok (w :: ws)) → genMname r now = w) := by
  refine ⟨?_, ?_, ?_, ?_, ?_⟩
  · rintro rfl
    simp [genMname, tryGetWord]
  · rintro status body hs rfl
    simp [genMname, tryGetWord, hs]
  · rintro e rfl
    simp [genMname, tryGetWord]
  · rintro rfl
    simp [genMname, tryGetWord, pyGet]
  · rintro w ws rfl
    simp [genMname, tryGetWord, pyGet]

/-- Witness for `name_generation_total`: concrete instances of the
fallback and the success case. -/
theorem name_generation_total_witness :
    genMname .netError ⟨7, 3, 11, 22, 33⟩ =
      fmtTimestamp ⟨7, 3, 11, 22, 33⟩ ∧
    genMname (.response 500 (.ok ["zebra"])) ⟨7, 3, 11, 22, 33⟩ =
      fmtTimestamp ⟨7, 3, 11, 22, 33⟩ ∧
    genMname (.response 200 (.ok ["zebra"])) ⟨7, 3, 11, 22, 33⟩ =
      "zebra" :=
  ⟨(name_generation_total .netError ⟨7, 3, 11, 22, 33⟩).1 rfl,
   (name_generation_total (.response 500 (.ok ["zebra"]))
      ⟨7, 3, 11, 22, 33⟩).2.1 500 (.ok ["zebra"]) (by decide) rfl,
   (name_generation_total (.response 200 (.ok ["zebra"]))
      ⟨7, 3, 11, 22, 33⟩).2.2.2.2 "zebra" [] rfl⟩

/-- C7: on a fresh run, checkpoint creation rejects every optimizer name
other than `'sgd'` and `'adam'` with the `ValueError` of train.py line
128 — the spec's `UnsupportedOptimizerError` — and because the check
sits before the epoch loop, the whole run produces only that error (no
epoch runs, no artifact is recorded); for `'sgd'` and `'adam'` no such
error is ever raised. -/
theorem optimizer_validation (a : Args) (env : Env)
    (hres : a.resume = false) :
    (a.optim ≠ "sgd" → a.optim ≠ "adam" →
      mainRun a env = .error (.valueError (a.optim ++ " is not supported"))) ∧
    ((a.optim = "sgd" ∨ a.optim = "adam") →
      ∀ msg, mainRun a env ≠ .error (.valueError msg)) := by
  constructor
  · intro h1 h2
    simp [mainRun, hres, selectOptimizer, h1, h2]
  · intro h msg hcontra
    have hopt : ∃ o, selectOptimizer a.optim = .ok o := by
      rcases h with h | h
      · exact ⟨.sgd, by simp [selectOptimizer, h]⟩
      · exact ⟨.adam, by simp [selectOptimizer, h]⟩
    obtain ⟨o, hopt⟩ := hopt
    rcases hmk : mkConfigs a (genMname env.nameService env.now) env.now
        (runLoop a.debug a.patience env.tr env.te 500
          (initLoopState initCheckpoint)) with er | c
    · have her := mkConfigs_error hmk
      subst her
      simp [mainRun, hres, hopt, hmk] at hcontra
    · simp [mainRun, hres, hopt, hmk] at hcontra

/-- Witness for `optimizer_validation`: `'rmsprop'` is rejected with the
`ValueError`, while `'sgd'` never produces one. -/
theorem optimizer_validation_witness :
    mainRun { baseArgs with optim := "rmsprop" } baseEnv =
      .error (.valueError "rmsprop is not supported") ∧
    ∀ msg, mainRun baseArgs baseEnv ≠ .error (.valueError msg) :=
  ⟨(optimizer_validation { baseArgs with optim := "rmsprop" } baseEnv
      rfl).1 (by decide) (by decide),
   (optimizer_validation baseArgs baseEnv rfl).2 (.inl rfl)⟩

/-- C2 (amended): the final `rmetric` is read from the test-metric
history at the Python index `best_epoch - 1`. For `best_epoch ≥ 1` that
is the 0-based element `best_epoch - 1`; for `best_epoch = 0` the
subscript is `-1`, which under Python's negative indexing returns the
*last* element of the history whenever at least one epoch ran — a
defined (if meaningless) value, not a failure — and raises `IndexError`
only when the history is empty. -/
theorem rmetric_lookup (a : Args) (m : String) (now : Timestamp)
    (st : LoopState) :
    (1 ≤ st.best_epoch → st.best_epoch ≤ st.cp.test_rmetric_all.length →
      ∃ c, mkConfigs a m now st = .ok c ∧
        st.cp.test_rmetric_all[st.best_epoch - 1]? = some c.rmetric) ∧
    (st.best_epoch = 0 → st.cp.test_rmetric_all ≠ [] →
      ∃ c, mkConfigs a m now st = .ok c ∧
        st.cp.test_rmetric_all.getLast? = some c.rmetric) ∧
    (st.best_epoch = 0 → st.cp.test_rmetric_all = [] →
      mkConfigs a m now st = .error .indexError) := by
  refine ⟨?_, ?_, ?_⟩
  · intro h1 h2
    have hidx : st.best_epoch - 1 < st.cp.test_rmetric_all.length := by
      omega
    have hpg : pyGet st.cp.test_rmetric_all ((st.best_epoch : Int) - 1) =
        st.cp.test_rmetric_all[st.best_epoch - 1]? := by
      unfold pyGet
      have hnn : ¬ ((st.best_epoch : Int) - 1 < 0) := by omega
      have h0 : (0 : Int) ≤ (st.best_epoch : Int) - 1 := by omega
      simp only [hnn, if_false, h0, if_true]
      congr 1
      omega
    rcases hx : st.cp.test_rmetric_all[st.best_epoch - 1]? with _ | x
    · rw [List.getElem?_eq_none_iff] at hx
      omega
    · refine ⟨mkConfigsRecord a m now st x, ?_, ?_⟩
      · unfold mkConfigs
        rw [hpg, hx]
      · rfl
  · intro h0 hne
    have hlen : 1 ≤ st.cp.test_rmetric_all.length :=
      List.length_pos.mpr hne
    have hpg : pyGet st.cp.test_rmetric_all ((st.best_epoch : Int) - 1) =
        st.cp.test_rmetric_all[st.cp.test_rmetric_all.length - 1]? := by
      unfold pyGet
      rw [h0]
      have hlt : ((0 : Nat) : Int) - 1 < 0 := by omega
      simp only [hlt, if_true]
      have h0' : (0 : Int) ≤ (st.cp.test_rmetric_all.length : Int) +
          (((0 : Nat) : Int) - 1) := by omega
      simp only [h0', if_true]
      congr 1
      omega
    rcases hx : st.cp.test_rmetric_all[st.cp.test_rmetric_all.length - 1]?
        with _ | x
    · rw [List.getElem?_eq_none_iff] at hx
      omega
    · refine ⟨mkConfigsRecord a m now st x, ?_, ?_⟩
      · unfold mkConfigs
        rw [hpg, hx]
      · rw [List.getLast?_eq_getElem?, hx]
        rfl
  · intro h0 hnil
    unfold mkConfigs
    have hpg : pyGet st.cp.test_rmetric_all ((st.best_epoch : Int) - 1) =
        none := by
      unfold pyGet
      rw [h0, hnil]
      simp
    rw [hpg]

/-- Witness for `rmetric_lookup`: all three branches at concrete loop
states. -/
theorem rmetric_lookup_witness :
    (∃ c, mkConfigs baseArgs "w" ⟨1, 1, 1, 1, 1⟩
        { cp := { epoch := 2, loss := 5, train_loss_all := [4, 5],
                  test_loss_all := [6, 5],
                  train_rmetric_all := [1, 2],
                  test_rmetric_all := [8, 9] },
          best_epoch := 1, best_loss := 6, currentSaves := 2,
          bestSaves := [1], summaryBlocks := [], graphsWrites := 2 } =
        .ok c ∧ ([(8 : ℚ), 9])[0]? = some c.rmetric) ∧
    mkConfigs baseArgs "w" ⟨1, 1, 1, 1, 1⟩
        (initLoopState initCheckpoint) = .error .indexError := by
  constructor
  · exact (rmetric_lookup baseArgs "w" ⟨1, 1, 1, 1, 1⟩ _).1
      (by decide) (by decide)
  · exact (rmetric_lookup baseArgs "w" ⟨1, 1, 1, 1, 1⟩ _).2.2 rfl rfl

/-- C2 counterexample: a complete fresh run (patience 0, every eval
loss 150 — never better than the sentinel 100) ends with
`best_epoch = 0`, and the final record is built *successfully*: the
`[-1]` subscript returns the last (and only) test rmetric, 7, instead
of failing as the claim states. -/
theorem rmetric_index_zero_no_failure :
    runIsOk (mainRun baseArgs baseEnv) = true ∧
    runBestEpoch (mainRun baseArgs baseEnv) = some 0 ∧
    runRmetric (mainRun baseArgs baseEnv) = some 7 := by
  refine ⟨rfl, rfl, rfl⟩

/-- Unfolding the epoch loop by one iteration of fuel. -/
theorem runLoop_succ (d : Bool) (p : Int) (tr te : Nat → EngineResult)
    (fuel : Nat) (st : LoopState) :
    runLoop d p tr te (fuel + 1) st =
      if loopCond p st then
        (if d then epochBody tr te st
         else runLoop d p tr te fuel (epochBody tr te st))
      else st := rfl

/-- Non-debug unfolding of the epoch loop. -/
theorem runLoop_succ_false (p : Int) (tr te : Nat → EngineResult)
    (fuel : Nat) (st : LoopState) :
    runLoop false p tr te (fuel + 1) st =
      if loopCond p st then runLoop false p tr te fuel (epochBody tr te st)
      else st := by
  rw [runLoop_succ]
  rcases h : loopCond p st <;> simp [h]

/-- Debug-mode unfolding: the loop body runs at most once. -/
theorem runLoop_debug_step (p : Int) (tr te : Nat → EngineResult)
    (fuel : Nat) (st : LoopState) :
    runLoop true p tr te (fuel + 1) st =
      if loopCond p st then epochBody tr te st else st := by
  rw [runLoop_succ]
  rcases h : loopCond p st <;> simp [h]

/-- The loop body advances the epoch counter by one. -/
theorem epochBody_epoch (tr te : Nat → EngineResult) (st : LoopState) :
    (epochBody tr te st).cp.epoch = st.cp.epoch + 1 := rfl

/-- Field view of the best-epoch update of the loop body. -/
theorem epochBody_best_epoch (tr te : Nat → EngineResult) (st : LoopState) :
    (epochBody tr te st).best_epoch =
      if st.best_loss > (te (st.cp.epoch + 1)).loss then st.cp.epoch + 1
      else st.best_epoch := rfl

/-- Field view of the best-loss update of the loop body. -/
theorem epochBody_best_loss (tr te : Nat → EngineResult) (st : LoopState) :
    (epochBody tr te st).best_loss =
      if st.best_loss > (te (st.cp.epoch + 1)).loss then
        (te (st.cp.epoch + 1)).loss
      else st.best_loss := rfl

/-- Field view of the `best.pt` writes of the loop body. -/
theorem epochBody_bestSaves (tr te : Nat → EngineResult) (st : LoopState) :
    (epochBody tr te st).bestSaves =
      if st.best_loss > (te (st.cp.epoch + 1)).loss then
        st.bestSaves ++ [st.cp.epoch + 1]
      else st.bestSaves := rfl

/-- Field view of the test-loss history update of the loop body. -/
theorem epochBody_test_loss (tr te : Nat → EngineResult) (st : LoopState) :
    (epochBody tr te st).cp.test_loss_all =
      st.cp.test_loss_all ++ [(te (st.cp.epoch + 1)).loss] := rfl

/-- After `j` loop-body iterations the epoch counter has advanced by
`j`. -/
theorem iterate_epoch (tr te : Nat → EngineResult) :
    ∀ (j : Nat) (st : LoopState),
      ((epochBody tr te)^[j] st).cp.epoch = st.cp.epoch + j := by
  intro j
  induction j with
  | zero => intro st; simp
  | succ j ih =>
    intro st
    rw [Function.iterate_succ_apply, ih (epochBody tr te st),
      epochBody_epoch]
    omega

/-- The loop body appends exactly one element to each history. -/
theorem epochBody_lengths (tr te : Nat → EngineResult) (st : LoopState) :
    (epochBody tr te st).cp.train_loss_all.length =
      st.cp.train_loss_all.length + 1 ∧
    (epochBody tr te st).cp.test_loss_all.length =
      st.cp.test_loss_all.length + 1 ∧
    (epochBody tr te st).cp.train_rmetric_all.length =
      st.cp.train_rmetric_all.length + 1 ∧
    (epochBody tr te st).cp.test_rmetric_all.length =
      st.cp.test_rmetric_all.length + 1 := by
  refine ⟨?_, ?_, ?_, ?_⟩ <;> simp [epochBody]

/-- After `j` loop-body iterations each of the four history sequences
has grown by exactly `j` elements. -/
theorem iterate_lengths (tr te : Nat → EngineResult) :
    ∀ (j : Nat) (st : LoopState),
      ((epochBody tr te)^[j] st).cp.train_loss_all.length =
        st.cp.train_loss_all.length + j ∧
      ((epochBody tr te)^[j] st).cp.test_loss_all.length =
        st.cp.test_loss_all.length + j ∧
      ((epochBody tr te)^[j] st).cp.train_rmetric_all.length =
        st.cp.train_rmetric_all.length + j ∧
      ((epochBody tr te)^[j] st).cp.test_rmetric_all.length =
        st.cp.test_rmetric_all.length + j := by
  intro j
  induction j with
  | zero => intro st; simp
  | succ j ih =>
    intro st
    obtain ⟨h1, h2, h3, h4⟩ := ih (epochBody tr te st)
    obtain ⟨g1, g2, g3, g4⟩ := epochBody_lengths tr te st
    rw [Function.iterate_succ_apply]
    refine ⟨?_, ?_, ?_, ?_⟩
    · rw [h1, g1]; omega
    · rw [h2, g2]; omega
    · rw [h3, g3]; omega
    · rw [h4, g4]; omega

/-- The best-epoch bookkeeping never runs ahead of the epoch counter. -/
theorem iterate_best_le (tr te : Nat → EngineResult) :
    ∀ (j : Nat) (st : LoopState), st.best_epoch ≤ st.cp.epoch →
      ((epochBody tr te)^[j] st).best_epoch ≤
        ((epochBody tr te)^[j] st).cp.epoch := by
  intro j
  induction j with
  | zero => intro st h; simpa using h
  | succ j ih =>
    intro st h
    rw [Function.iterate_succ_apply]
    refine ih (epochBody tr te st) ?_
    rw [epochBody_best_epoch, epochBody_epoch]
    split <;> omega

/-- On a fresh run the best loss tracked by the loop equals the minimum
of the sentinel 100 and all eval losses so far. -/
theorem iterate_best_loss_fold (tr te : Nat → EngineResult) :
    ∀ (j : Nat),
      ((epochBody tr te)^[j] (initLoopState initCheckpoint)).best_loss =
        ((epochBody tr te)^[j]
            (initLoopState initCheckpoint)).cp.test_loss_all.foldl min
          100 := by
  intro j
  induction j with
  | zero => simp [initLoopState, initCheckpoint]
  | succ j ih =>
    rw [Function.iterate_succ_apply', epochBody_best_loss,
      epochBody_test_loss, List.foldl_append, ← ih]
    rcases lt_or_le
        ((te (((epochBody tr te)^[j]
            (initLoopState initCheckpoint)).cp.epoch + 1)).loss)
        (((epochBody tr te)^[j] (initLoopState initCheckpoint)).best_loss)
        with h | h
    · simp [h, min_eq_right h.le]
    · simp [not_lt.mpr h, min_eq_left h]

/-- Characterization of the non-debug epoch loop: with enough fuel it
runs the body while the continue-condition holds and stops at the first
state failing it. -/
theorem runLoop_iterate (p : Int) (tr te : Nat → EngineResult) :
    ∀ (fuel : Nat) (st : LoopState), 500 ≤ fuel + st.cp.epoch →
      ∃ K, K ≤ fuel ∧
        runLoop false p tr te fuel st = (epochBody tr te)^[K] st ∧
        (∀ j, j < K → loopCond p ((epochBody tr te)^[j] st) = true) ∧
        loopCond p ((epochBody tr te)^[K] st) = false := by
  intro fuel
  induction fuel with
  | zero =>
    intro st h
    refine ⟨0, le_refl 0, rfl, by omega, ?_⟩
    simp only [Function.iterate_zero_apply, loopCond]
    have : ¬ st.cp.epoch < 500 := by omega
    simp [this]
  | succ fuel ih =>
    intro st h
    rcases hc : loopCond p st with _ | _
    · refine ⟨0, by omega, ?_, by omega, by simpa using hc⟩
      rw [runLoop_succ_false, if_neg (by simp [hc])]
      simp
    · have h' : 500 ≤ fuel + (epochBody tr te st).cp.epoch := by
        rw [epochBody_epoch]; omega
      obtain ⟨K, hK, hrun, hall, hstop⟩ := ih (epochBody tr te st) h'
      refine ⟨K + 1, by omega, ?_, ?_, ?_⟩
      · rw [runLoop_succ_false, if_pos (by simp [hc]),
          Function.iterate_succ_apply]
        exact hrun
      · intro j hj
        cases j with
        | zero => simpa using hc
        | succ i =>
          rw [Function.iterate_succ_apply]
          exact hall i (by omega)
      · rw [Function.iterate_succ_apply]
        exact hstop

/-- The epoch loop, debug or not, always lands on some iterate of the
loop body, and completes at least one epoch when the condition holds
initially and there is fuel. -/
theorem runLoop_reach (d : Bool) (p : Int) (tr te : Nat → EngineResult) :
    ∀ (fuel : Nat) (st : LoopState),
      ∃ K, runLoop d p tr te fuel st = (epochBody tr te)^[K] st ∧
        (1 ≤ fuel → loopCond p st = true → 1 ≤ K) := by
  intro fuel
  induction fuel with
  | zero => intro st; exact ⟨0, rfl, by omega⟩
  | succ fuel ih =>
    intro st
    rcases hc : loopCond p st with _ | _
    · refine ⟨0, ?_, ?_⟩
      · rw [runLoop_succ, if_neg (by simp [hc])]
        simp
      · intro _ h
        simp at h
    · rcases d with _ | _
      · obtain ⟨K, hrun, _⟩ := ih (epochBody tr te st)
        refine ⟨K + 1, ?_, fun _ _ => by omega⟩
        rw [runLoop_succ_false, if_pos (by simp [hc]),
          Function.iterate_succ_apply]
        exact hrun
      · refine ⟨1, ?_, fun _ _ => le_refl 1⟩
        rw [runLoop_debug_step, if_pos (by simp [hc]),
          Function.iterate_one]

/-- If the loop finishes in state `iterate^[K]` from the fresh initial
state with `K ≥ 1`, the final configs record can be built: the
test-metric history is non-empty and the best epoch is within range, so
the `rmetric` subscript succeeds. -/
theorem mkConfigs_isOk (a : Args) (m : String) (now : Timestamp)
    (st : LoopState)
    (hle : st.best_epoch ≤ st.cp.test_rmetric_all.length)
    (hne : 1 ≤ st.cp.test_rmetric_all.length) :
    ∃ c, mkConfigs a m now st = .ok c := by
  have hpg : ∃ x,
      pyGet st.cp.test_rmetric_all ((st.best_epoch : Int) - 1) = some x := by
    unfold pyGet
    by_cases hneg : (st.best_epoch : Int) - 1 < 0
    · have h0 : (0 : Int) ≤ (st.cp.test_rmetric_all.length : Int) +
          ((st.best_epoch : Int) - 1) := by omega
      simp only [hneg, if_true, h0]
      exact ⟨_, List.getElem?_eq_getElem (by omega)⟩
    · have h0 : (0 : Int) ≤ (st.best_epoch : Int) - 1 := by omega
      simp only [hneg, if_false, h0, if_true]
      have hbe : 1 ≤ st.best_epoch := by omega
      exact ⟨_, List.getElem?_eq_getElem (by omega)⟩
  obtain ⟨x, hpg⟩ := hpg
  refine ⟨mkConfigsRecord a m now st x, ?_⟩
  unfold mkConfigs
  rw [hpg]

/-- Projection: the final loop state of a completed run. -/
def runFinal (r : Except PyErr RunOutputs) : Option LoopState :=
  match r with
  | .ok o => some o.final
  | .error _ => none

/-- Eval-pass trace of the spec's patience-0 scenario: loss 1/2 at
epoch 1 (improving on the sentinel 100), loss 3/5 (worse) afterwards. -/
def teScen : Nat → EngineResult :=
  fun n => if n = 1 then ⟨1/2, 1, "a"⟩ else ⟨3/5, 2, "b"⟩

/-- C1: the non-debug epoch loop attempts a new epoch exactly while the
condition `(epoch - best_epoch ≤ patience) and (epoch < 500)` holds of
the state *before* the increment: the final state is the first iterate
of the loop body failing the condition, every earlier iterate satisfies
it, and the body increments the epoch counter before recording the
train and eval passes of the new epoch. In the patience-0 scenario —
eval loss 1/2 at epoch 1 (improving on the sentinel), 3/5 at epoch 2
(worse) — a second epoch is attempted and the loop stops after epoch 2
with best epoch 1. -/
theorem epoch_loop_gating (p : Int) (tr te : Nat → EngineResult) :
    (∃ K, K ≤ 500 ∧
      runLoop false p tr te 500 (initLoopState initCheckpoint) =
        (epochBody tr te)^[K] (initLoopState initCheckpoint) ∧
      (∀ j, j < K → loopCond p
        ((epochBody tr te)^[j] (initLoopState initCheckpoint)) = true) ∧
      loopCond p
        ((epochBody tr te)^[K] (initLoopState initCheckpoint)) = false) ∧
    (∀ st : LoopState, (epochBody tr te st).cp.epoch = st.cp.epoch + 1 ∧
      (epochBody tr te st).cp.train_loss_all =
        st.cp.train_loss_all ++ [(tr (st.cp.epoch + 1)).loss] ∧
      (epochBody tr te st).cp.test_loss_all =
        st.cp.test_loss_all ++ [(te (st.cp.epoch + 1)).loss]) ∧
    (p = 0 → (te 1).loss = 1/2 → (te 2).loss = 3/5 →
      (runLoop false p tr te 500 (initLoopState initCheckpoint)).cp.epoch
          = 2 ∧
      (runLoop false p tr te 500
          (initLoopState initCheckpoint)).best_epoch = 1) := by
  refine ⟨?_, fun st => ⟨rfl, rfl, rfl⟩, ?_⟩
  · exact runLoop_iterate p tr te 500 (initLoopState initCheckpoint)
      (by simp [initLoopState, initCheckpoint])
  · rintro rfl hte1 hte2
    have hcond0 : loopCond 0 (initLoopState initCheckpoint) = true := by
      decide
    have h1e : (epochBody tr te (initLoopState initCheckpoint)).cp.epoch
        = 1 := rfl
    have h1b : (epochBody tr te (initLoopState initCheckpoint)).best_epoch
        = 1 := by
      rw [epochBody_best_epoch]
      norm_num [initLoopState, initCheckpoint, hte1]
    have h1l : (epochBody tr te (initLoopState initCheckpoint)).best_loss
        = 1/2 := by
      rw [epochBody_best_loss]
      norm_num [initLoopState, initCheckpoint, hte1]
    have hcond1 : loopCond 0
        (epochBody tr te (initLoopState initCheckpoint)) = true := by
      simp [loopCond, h1e, h1b]
    have h2e : (epochBody tr te
        (epochBody tr te (initLoopState initCheckpoint))).cp.epoch = 2 := by
      rw [epochBody_epoch, h1e]
    have h2b : (epochBody tr te
        (epochBody tr te (initLoopState initCheckpoint))).best_epoch
        = 1 := by
      rw [epochBody_best_epoch, h1e]
      norm_num [hte2, h1l, h1b]
    have hcond2 : loopCond 0 (epochBody tr te
        (epochBody tr te (initLoopState initCheckpoint))) = false := by
      simp [loopCond, h2e, h2b]
    have hrun : runLoop false 0 tr te 500 (initLoopState initCheckpoint) =
        epochBody tr te (epochBody tr te (initLoopState initCheckpoint))
        := by
      show runLoop false 0 tr te (499 + 1) (initLoopState initCheckpoint)
          = _
      rw [runLoop_succ_false, if_pos hcond0]
      show runLoop false 0 tr te (498 + 1) _ = _
      rw [runLoop_succ_false, if_pos hcond1]
      show runLoop false 0 tr te (497 + 1) _ = _
      rw [runLoop_succ_false, if_neg (by simp [hcond2])]
    rw [hrun]
    exact ⟨h2e, h2b⟩

/-- Witness for `epoch_loop_gating`: the concrete patience-0 scenario
stops after epoch 2 with best epoch 1. -/
theorem epoch_loop_gating_witness :
    (runLoop false 0 trFix teScen 500
        (initLoopState initCheckpoint)).cp.epoch = 2 ∧
    (runLoop false 0 trFix teScen 500
        (initLoopState initCheckpoint)).best_epoch = 1 :=
  (epoch_loop_gating 0 trFix teScen).2.2 rfl rfl rfl

/-- C5: on a fresh run, after `j` completed epochs all four history
sequences have length `j`, the epoch counter equals `j`, and every
epoch appends exactly one element to each of the four sequences. -/
theorem history_length_invariant (tr te : Nat → EngineResult) (j : Nat) :
    ((epochBody tr te)^[j]
        (initLoopState initCheckpoint)).cp.train_loss_all.length = j ∧
    ((epochBody tr te)^[j]
        (initLoopState initCheckpoint)).cp.test_loss_all.length = j ∧
    ((epochBody tr te)^[j]
        (initLoopState initCheckpoint)).cp.train_rmetric_all.length = j ∧
    ((epochBody tr te)^[j]
        (initLoopState initCheckpoint)).cp.test_rmetric_all.length = j ∧
    ((epochBody tr te)^[j] (initLoopState initCheckpoint)).cp.epoch = j ∧
    (∀ st : LoopState,
      (epochBody tr te st).cp.train_loss_all.length =
        st.cp.train_loss_all.length + 1 ∧
      (epochBody tr te st).cp.test_loss_all.length =
        st.cp.test_loss_all.length + 1 ∧
      (epochBody tr te st).cp.train_rmetric_all.length =
        st.cp.train_rmetric_all.length + 1 ∧
      (epochBody tr te st).cp.test_rmetric_all.length =
        st.cp.test_rmetric_all.length + 1) := by
  obtain ⟨h1, h2, h3, h4⟩ :=
    iterate_lengths tr te j (initLoopState initCheckpoint)
  refine ⟨?_, ?_, ?_, ?_, ?_, fun st => epochBody_lengths tr te st⟩
  · simpa [initLoopState, initCheckpoint] using h1
  · simpa [initLoopState, initCheckpoint] using h2
  · simpa [initLoopState, initCheckpoint] using h3
  · simpa [initLoopState, initCheckpoint] using h4
  · simpa [initLoopState, initCheckpoint] using
      iterate_epoch tr te j (initLoopState initCheckpoint)

/-- C4 (amended): on a fresh run the tracked best loss is non-increasing
and, after every completed epoch, equals the minimum of the sentinel
100 and all eval losses so far (`foldl min 100` over the test-loss
history — the claim's plain `min` over the history fails when every
eval loss exceeds the sentinel); the best snapshot is written in an
epoch if and only if that epoch's eval loss is strictly below the best
loss so far, and `best_epoch`/`best_loss` are updated exactly then. -/
theorem best_checkpoint_bookkeeping (tr te : Nat → EngineResult)
    (j : Nat) :
    ((epochBody tr te)^[j + 1] (initLoopState initCheckpoint)).best_loss ≤
      ((epochBody tr te)^[j] (initLoopState initCheckpoint)).best_loss ∧
    ((epochBody tr te)^[j] (initLoopState initCheckpoint)).best_loss =
      ((epochBody tr te)^[j]
        (initLoopState initCheckpoint)).cp.test_loss_all.foldl min 100 ∧
    ((te (j + 1)).loss <
        ((epochBody tr te)^[j] (initLoopState initCheckpoint)).best_loss →
      ((epochBody tr te)^[j + 1] (initLoopState initCheckpoint)).bestSaves
          = ((epochBody tr te)^[j]
              (initLoopState initCheckpoint)).bestSaves ++ [j + 1] ∧
      ((epochBody tr te)^[j + 1]
          (initLoopState initCheckpoint)).best_epoch = j + 1 ∧
      ((epochBody tr te)^[j + 1]
          (initLoopState initCheckpoint)).best_loss = (te (j + 1)).loss) ∧
    (¬ (te (j + 1)).loss <
        ((epochBody tr te)^[j] (initLoopState initCheckpoint)).best_loss →
      ((epochBody tr te)^[j + 1] (initLoopState initCheckpoint)).bestSaves
          = ((epochBody tr te)^[j]
              (initLoopState initCheckpoint)).bestSaves ∧
      ((epochBody tr te)^[j + 1]
          (initLoopState initCheckpoint)).best_epoch =
        ((epochBody tr te)^[j]
          (initLoopState initCheckpoint)).best_epoch ∧
      ((epochBody tr te)^[j + 1]
          (initLoopState initCheckpoint)).best_loss =
        ((epochBody tr te)^[j]
          (initLoopState initCheckpoint)).best_loss) := by
  have hep : ((epochBody tr te)^[j]
      (initLoopState initCheckpoint)).cp.epoch = j := by
    simpa [initLoopState, initCheckpoint] using
      iterate_epoch tr te j (initLoopState initCheckpoint)
  refine ⟨?_, iterate_best_loss_fold tr te j, ?_, ?_⟩
  · rw [Function.iterate_succ_apply', epochBody_best_loss]
    split
    · exact le_of_lt (by assumption)
    · exact le_refl _
  · intro h
    rw [Function.iterate_succ_apply', epochBody_bestSaves,
      epochBody_best_epoch, epochBody_best_loss, hep]
    refine ⟨if_pos h, if_pos h, if_pos h⟩
  · intro h
    rw [Function.iterate_succ_apply', epochBody_bestSaves,
      epochBody_best_epoch, epochBody_best_loss, hep]
    refine ⟨if_neg h, if_neg h, if_neg h⟩

/-- Witness for `best_checkpoint_bookkeeping`: in the scenario trace the
first epoch's eval loss 1/2 improves on the sentinel, so `best.pt` is
written at epoch 1 and the bookkeeping moves to (1, 1/2). -/
theorem best_checkpoint_bookkeeping_witness :
    (teScen (0 + 1)).loss <
      ((epochBody trFix teScen)^[0]
        (initLoopState initCheckpoint)).best_loss ∧
    ((epochBody trFix teScen)^[0 + 1]
        (initLoopState initCheckpoint)).bestSaves =
      ((epochBody trFix teScen)^[0]
        (initLoopState initCheckpoint)).bestSaves ++ [0 + 1] ∧
    ((epochBody trFix teScen)^[0 + 1]
        (initLoopState initCheckpoint)).best_epoch = 0 + 1 ∧
    ((epochBody trFix teScen)^[0 + 1]
        (initLoopState initCheckpoint)).best_loss =
      (teScen (0 + 1)).loss := by
  have h : (teScen (0 + 1)).loss <
      ((epochBody trFix teScen)^[0]
        (initLoopState initCheckpoint)).best_loss := by
    norm_num [teScen, initLoopState, initCheckpoint]
  obtain ⟨h1, h2, h3⟩ :=
    (best_checkpoint_bookkeeping trFix teScen 0).2.2.1 h
  exact ⟨h, h1, h2, h3⟩

/-- C4 counterexample: one epoch with eval loss 150 — worse than the
sentinel 100 — leaves `best_loss = 100`, while the minimum of the
test-loss history is 150, so `best_loss` does not equal the minimum of
the history as the claim states. -/
theorem best_loss_not_history_min :
    (epochBody trFix teFix (initLoopState initCheckpoint)).best_loss
        = 100 ∧
    (epochBody trFix teFix
        (initLoopState initCheckpoint)).cp.test_loss_all = [150] ∧
    (epochBody trFix teFix
        (initLoopState initCheckpoint)).cp.test_loss_all.min?
        = some 150 ∧
    (epochBody trFix teFix (initLoopState initCheckpoint)).best_loss
        ≠ 150 := by
  refine ⟨rfl, rfl, rfl, by decide⟩

/-- The loop condition holds at the fresh initial state exactly for
non-negative patience. -/
theorem loopCond_init (p : Int) (hp : 0 ≤ p) :
    loopCond p (initLoopState initCheckpoint) = true := by
  unfold loopCond initLoopState initCheckpoint
  simp [hp]

/-- The loop condition fails at the fresh initial state for negative
patience. -/
theorem loopCond_init_neg (p : Int) (hp : p < 0) :
    loopCond p (initLoopState initCheckpoint) = false := by
  unfold loopCond initLoopState initCheckpoint
  simp
  omega

/-- A debug run with the fixed scenario arguments and patience 5. -/
def dbgArgs : Args :=
  { baseArgs with debug := true, patience := 5 }

/-- C6 (amended): for every *non-negative* patience the debug loop
performs exactly one epoch and then stops — one summary block, one
`graphs.png` write — and a full debug run of `main` completes with one
epoch and one summary block (with negative patience even the first
epoch is not attempted, which corrects the claim's "regardless of the
patience value"). -/
theorem debug_exactly_one_epoch (p : Nat) :
    (∀ tr te : Nat → EngineResult,
      (runLoop true (p : Int) tr te 500
          (initLoopState initCheckpoint)).cp.epoch = 1 ∧
      (runLoop true (p : Int) tr te 500
          (initLoopState initCheckpoint)).summaryBlocks.length = 1 ∧
      (runLoop true (p : Int) tr te 500
          (initLoopState initCheckpoint)).graphsWrites = 1) ∧
    (∀ (a : Args) (env : Env), a.resume = false → a.debug = true →
      a.patience = (p : Int) → (a.optim = "sgd" ∨ a.optim = "adam") →
      runEpochCount (mainRun a env) = some 1 ∧
      runSummaryCount (mainRun a env) = some 1) := by
  have hcond : loopCond (p : Int) (initLoopState initCheckpoint)
      = true := loopCond_init _ (by omega)
  have hone : ∀ tr te : Nat → EngineResult,
      runLoop true (p : Int) tr te 500 (initLoopState initCheckpoint) =
        epochBody tr te (initLoopState initCheckpoint) := by
    intro tr te
    show runLoop true (p : Int) tr te (499 + 1)
        (initLoopState initCheckpoint) = _
    rw [runLoop_debug_step, if_pos hcond]
  constructor
  · intro tr te
    rw [hone tr te]
    refine ⟨rfl, ?_, rfl⟩
    simp [epochBody, initLoopState, initCheckpoint]
  · intro a env hres hdbg hpat hopt
    have hopt' : ∃ o, selectOptimizer a.optim = .ok o := by
      rcases hopt with h | h
      · exact ⟨.sgd, by simp [selectOptimizer, h]⟩
      · exact ⟨.adam, by simp [selectOptimizer, h]⟩
    obtain ⟨o, hopt'⟩ := hopt'
    have hrl : runLoop a.debug a.patience env.tr env.te 500
        (initLoopState initCheckpoint) =
        epochBody env.tr env.te (initLoopState initCheckpoint) := by
      rw [hdbg, hpat]
      exact hone env.tr env.te
    have hlen : (epochBody env.tr env.te
        (initLoopState initCheckpoint)).cp.test_rmetric_all.length
        = 1 := by
      have := (epochBody_lengths env.tr env.te
        (initLoopState initCheckpoint)).2.2.2
      simpa [initLoopState, initCheckpoint] using this
    have hbe : (epochBody env.tr env.te
        (initLoopState initCheckpoint)).best_epoch ≤ 1 := by
      rw [epochBody_best_epoch]
      split <;> simp [initLoopState, initCheckpoint]
    obtain ⟨c, hc⟩ := mkConfigs_isOk a
      (genMname env.nameService env.now) env.now
      (epochBody env.tr env.te (initLoopState initCheckpoint))
      (by rw [hlen]; exact hbe) (by rw [hlen])
    have h1 : (epochBody env.tr env.te
        (initLoopState initCheckpoint)).cp.epoch = 1 := rfl
    have h2 : (epochBody env.tr env.te
        (initLoopState initCheckpoint)).summaryBlocks.length = 1 := by
      simp [epochBody, initLoopState, initCheckpoint]
    constructor
    · simp [mainRun, hres, hopt', hrl, hc, runEpochCount, h1]
    · simp [mainRun, hres, hopt', hrl, hc, runSummaryCount, h2]

/-- Witness for `debug_exactly_one_epoch`: a concrete debug run with
patience 5 performs exactly one epoch and writes one summary block. -/
theorem debug_exactly_one_epoch_witness :
    runEpochCount (mainRun dbgArgs baseEnv) = some 1 ∧
    runSummaryCount (mainRun dbgArgs baseEnv) = some 1 :=
  (debug_exactly_one_epoch 5).2 dbgArgs baseEnv rfl rfl rfl (.inl rfl)

/-- C6 counterexample: with the debug flag set and patience `-1` the
loop performs zero epochs — not exactly one — and writes no summary
block: the claim's "regardless of the patience values" fails. -/
theorem debug_not_one_epoch_negative_patience :
    (runLoop true (-1) trFix teFix 500
        (initLoopState initCheckpoint)).cp.epoch = 0 ∧
    (runLoop true (-1) trFix teFix 500
        (initLoopState initCheckpoint)).summaryBlocks = [] ∧
    ¬ ((runLoop true (-1) trFix teFix 500
        (initLoopState initCheckpoint)).cp.epoch = 1) := by
  refine ⟨rfl, rfl, by decide⟩

/-- C3 (amended): the final RunConfig record is serialized whenever the
run reaches the code after the loop — whether the loop ended by its
condition becoming false or by the debug break — provided at least one
epoch completed (patience ≥ 0 on a fresh run); with negative patience
the loop body never runs and the run instead dies in the `rmetric`
lookup, so no record is written. -/
theorem configs_serialized_after_loop (a : Args) (env : Env)
    (hres : a.resume = false)
    (hopt : a.optim = "sgd" ∨ a.optim = "adam") :
    (0 ≤ a.patience →
      runIsOk (mainRun a env) = true ∧
      runFinal (mainRun a env) =
        some (runLoop a.debug a.patience env.tr env.te 500
          (initLoopState initCheckpoint))) ∧
    (a.patience < 0 → mainRun a env = .error .indexError) := by
  have hopt' : ∃ o, selectOptimizer a.optim = .ok o := by
    rcases hopt with h | h
    · exact ⟨.sgd, by simp [selectOptimizer, h]⟩
    · exact ⟨.adam, by simp [selectOptimizer, h]⟩
  obtain ⟨o, hopt'⟩ := hopt'
  constructor
  · intro hp
    have hcond : loopCond a.patience (initLoopState initCheckpoint)
        = true := loopCond_init _ hp
    obtain ⟨K, hK, hKge⟩ := runLoop_reach a.debug a.patience env.tr
      env.te 500 (initLoopState initCheckpoint)
    have h1K : 1 ≤ K := hKge (by omega) hcond
    have hlen : ((epochBody env.tr env.te)^[K]
        (initLoopState initCheckpoint)).cp.test_rmetric_all.length
        = K := by
      have := (iterate_lengths env.tr env.te K
        (initLoopState initCheckpoint)).2.2.2
      simpa [initLoopState, initCheckpoint] using this
    have hbe : ((epochBody env.tr env.te)^[K]
        (initLoopState initCheckpoint)).best_epoch ≤ K := by
      have hle := iterate_best_le env.tr env.te K
        (initLoopState initCheckpoint)
        (by simp [initLoopState, initCheckpoint])
      have hep := iterate_epoch env.tr env.te K
        (initLoopState initCheckpoint)
      rw [hep] at hle
      simpa [initLoopState, initCheckpoint] using hle
    obtain ⟨c, hc⟩ := mkConfigs_isOk a
      (genMname env.nameService env.now) env.now
      ((epochBody env.tr env.te)^[K] (initLoopState initCheckpoint))
      (by rw [hlen]; exact hbe) (by rw [hlen]; exact h1K)
    constructor
    · simp [mainRun, hres, hopt', hK, hc, runIsOk]
    · simp [mainRun, hres, hopt', hK, hc, runFinal]
  · intro hneg
    have hcond : loopCond a.patience (initLoopState initCheckpoint)
        = false := loopCond_init_neg _ hneg
    have hrl : runLoop a.debug a.patience env.tr env.te 500
        (initLoopState initCheckpoint) = initLoopState initCheckpoint := by
      show runLoop a.debug a.patience env.tr env.te (499 + 1)
          (initLoopState initCheckpoint) = _
      rw [runLoop_succ, if_neg (by simp [hcond])]
    have hmk : mkConfigs a (genMname env.nameService env.now) env.now
        (initLoopState initCheckpoint) = .error .indexError := rfl
    simp [mainRun, hres, hopt', hrl, hmk]

/-- Witness for `configs_serialized_after_loop`: the concrete debug run
completes and its final state is the loop's result. -/
theorem configs_serialized_after_loop_witness :
    runIsOk (mainRun dbgArgs baseEnv) = true ∧
    runFinal (mainRun dbgArgs baseEnv) =
      some (runLoop dbgArgs.debug dbgArgs.patience baseEnv.tr baseEnv.te
        500 (initLoopState initCheckpoint)) :=
  (configs_serialized_after_loop dbgArgs baseEnv rfl (.inl rfl)).1
    (by decide)

/-- C3 counterexample: a concrete debug run leaves the loop through the
debug break — the continue-condition still holds after its single epoch
— and the final record *is* serialized, contradicting the claim that
serialization happens only when the loop falls out of its condition. -/
theorem configs_written_despite_debug_break :
    runIsOk (mainRun dbgArgs baseEnv) = true ∧
    runEpochCount (mainRun dbgArgs baseEnv) = some 1 ∧
    loopCond dbgArgs.patience
      (epochBody baseEnv.tr baseEnv.te (initLoopState initCheckpoint))
      = true := by
  refine ⟨rfl, rfl, rfl⟩

/-- String concatenation concatenates the underlying character lists. -/
@[simp] theorem strData_append (a b : String) :
    (a ++ b).data = a.data ++ b.data := rfl

/-- Character view of the `"debug_"` literal. -/
@[simp] theorem data_debug_tag :
    ("debug_" : String).data = ['d', 'e', 'b', 'u', 'g', '_'] := rfl

/-- Character view of the `"_"` literal. -/
@[simp] theorem data_underscore : ("_" : String).data = ['_'] := rfl

/-- Character view of the `"lr"` literal. -/
@[simp] theorem data_lr_tag : ("lr" : String).data = ['l', 'r'] := rfl

/-- Character view of the `"_bs"` literal. -/
@[simp] theorem data_bs_tag :
    ("_bs" : String).data = ['_', 'b', 's'] := rfl

/-- Character view of the `"_pre"` literal. -/
@[simp] theorem data_pre_tag :
    ("_pre" : String).data = ['_', 'p', 'r', 'e'] := rfl

/-- Character view of the `"_bal"` literal. -/
@[simp] theorem data_bal_tag :
    ("_bal" : String).data = ['_', 'b', 'a', 'l'] := rfl

/-- Character view of the empty literal. -/
@[simp] theorem data_empty : ("" : String).data = [] := rfl

/-- Character view of `natRepr`. -/
@[simp] theorem natRepr_data (n : Nat) : (natRepr n).data = natChars n := rfl

/-- A contiguous factor on the right is a contiguous part. -/
theorem isPart_app_right {w l r : List Char} (h : w <:+: r) :
    w <:+: l ++ r := by
  obtain ⟨s, t, rfl⟩ := h
  exact ⟨l ++ s, t, by simp⟩

/-- A contiguous factor on the left is a contiguous part. -/
theorem isPart_app_left {w l r : List Char} (h : w <:+: l) :
    w <:+: l ++ r := by
  obtain ⟨s, t, rfl⟩ := h
  exact ⟨s, t ++ r, by simp⟩

/-- Skipping a head character keeps a contiguous part. -/
theorem isPart_cons {w l : List Char} (c : Char) (h : w <:+: l) :
    w <:+: c :: l := by
  obtain ⟨s, t, rfl⟩ := h
  exact ⟨c :: s, t, by simp⟩

/-- A list is a contiguous part of itself followed by anything. -/
theorem isPart_self_app (w t : List Char) : w <:+: w ++ t :=
  ⟨[], t, by simp⟩

/-- Every character of a contiguous part occurs in the whole. -/
theorem mem_of_isPart {w s : List Char} (h : w <:+: s) {c : Char}
    (hc : c ∈ w) : c ∈ s :=
  h.sublist.subset hc

/-- A contiguous part of a concatenation lies in the left piece, in the
right piece, or spans the junction, splitting into a non-empty tail of
the left piece and a non-empty initial run of the right piece. -/
theorem isPart_append_cases {w a b : List Char} (h : w <:+: a ++ b) :
    w <:+: a ∨ w <:+: b ∨
      ∃ w₁ w₂, w = w₁ ++ w₂ ∧ w₁ ≠ [] ∧ w₂ ≠ [] ∧ w₁ <:+ a ∧ w₂ <+: b := by
  obtain ⟨s, t, hst⟩ := h
  rw [List.append_assoc] at hst
  rcases List.append_eq_append_iff.mp hst with ⟨a', ha, hb⟩ | ⟨c', _, hd⟩
  · rcases List.append_eq_append_iff.mp hb with ⟨x, hx, _⟩ | ⟨y, hy, hb2⟩
    · left
      exact ⟨s, x, by rw [List.append_assoc, ← hx]; exact ha.symm⟩
    · by_cases ha0 : a' = []
      · right; left
        refine ⟨[], t, ?_⟩
        rw [hb2, hy, ha0]
        simp
      · by_cases hy0 : y = []
        · left
          refine ⟨s, [], ?_⟩
          rw [List.append_nil, hy, hy0, List.append_nil]
          exact ha.symm
        · right; right
          exact ⟨a', y, hy, ha0, hy0, ⟨s, ha.symm⟩, ⟨t, hb2.symm⟩⟩
  · right; left
    exact ⟨c', t, by rw [hd, List.append_assoc]⟩

/-- A non-empty contiguous part avoiding the separator `'_'` cannot
cross a `'_'` junction: it lies wholly left or wholly right of it. -/
theorem isPart_sep {w a b : List Char} (hw : w ≠ []) (hsep : '_' ∉ w)
    (h : w <:+: a ++ '_' :: b) : w <:+: a ∨ w <:+: b := by
  have h' : w <:+: (a ++ ['_']) ++ b := by
    simpa [List.append_assoc] using h
  rcases isPart_append_cases h' with h1 | h1 |
    ⟨w₁, w₂, hw12, hne1, _, hsuf, _⟩
  · rcases isPart_append_cases h1 with h2 | h2 |
      ⟨w₁, w₂, hw12, _, hne2, _, hpre⟩
    · exact .inl h2
    · exfalso
      cases w with
      | nil => exact hw rfl
      | cons c w' =>
        have hc : c ∈ (['_'] : List Char) :=
          h2.sublist.subset (List.mem_cons_self _ _)
        simp at hc
        exact hsep (by simp [hc])
    · exfalso
      obtain ⟨t', ht'⟩ := hpre
      cases w₂ with
      | nil => exact hne2 rfl
      | cons c w₂' =>
        have hc : c = '_' := by
          simp only [List.cons_append, List.cons.injEq] at ht'
          exact ht'.1
        apply hsep
        rw [hw12, hc]
        exact List.mem_append_right _ (List.mem_cons_self _ _)
  · exact .inr h1
  · exfalso
    obtain ⟨p, hp⟩ := hsuf
    have hlast : w₁.getLast? = some '_' := by
      have h2 : (p ++ w₁).getLast? = some '_' := by
        rw [hp]
        exact List.getLast?_concat a
      rwa [List.getLast?_append_of_ne_nil p hne1] at h2
    have hmem : '_' ∈ w₁ := by
      rw [List.getLast?_eq_getElem?] at hlast
      exact List.getElem?_mem hlast
    exact hsep (by rw [hw12]; exact List.mem_append_left _ hmem)

/-- Characters producible by the numeric renderings: decimal digits,
the decimal point and the minus sign. -/
def numericChars : List Char :=
  ['0', '1', '2', '3', '4', '5', '6', '7', '8', '9', '.', '-']

/-- The character run the wildcat tag contributes to a run name. -/
def wildcatTag : List Char := ['w', 'i', 'l', 'd', 'c', 'a', 't']

/-- The wildcat tag is the character list of `"wildcat"`. -/
theorem wildcatTag_eq_data : wildcatTag = "wildcat".data := rfl

/-- Every digit character is numeric. -/
theorem digitChar_numeric (n : Nat) : digitChar n ∈ numericChars := by
  rcases n with _ | _ | _ | _ | _ | _ | _ | _ | _ | n <;>
    simp [digitChar, numericChars]

/-- Every character of the fueled decimal rendering is numeric. -/
theorem natCharsAux_numeric :
    ∀ (fuel n : Nat), ∀ c ∈ natCharsAux fuel n, c ∈ numericChars := by
  intro fuel
  induction fuel with
  | zero => intro n c hc; simp [natCharsAux] at hc
  | succ fuel ih =>
    intro n c hc
    rw [natCharsAux] at hc
    by_cases h : n < 10
    · rw [if_pos h] at hc
      simp at hc
      rw [hc]
      exact digitChar_numeric n
    · rw [if_neg h] at hc
      rcases List.mem_append.mp hc with h1 | h1
      · exact ih _ c h1
      · simp at h1
        rw [h1]
        exact digitChar_numeric _

/-- Every character of the decimal rendering of a natural is numeric. -/
theorem natChars_numeric (n : Nat) : ∀ c ∈ natChars n, c ∈ numericChars :=
  fun c hc => natCharsAux_numeric (n + 1) n c hc

/-- Every character of the fractional digits is numeric. -/
theorem fracChars_numeric :
    ∀ (fuel n d : Nat), ∀ c ∈ fracChars fuel n d, c ∈ numericChars := by
  intro fuel
  induction fuel with
  | zero => intro n d c hc; simp [fracChars] at hc
  | succ fuel ih =>
    intro n d c hc
    rw [fracChars] at hc
    by_cases h : n = 0
    · rw [if_pos h] at hc
      simp at hc
    · rw [if_neg h] at hc
      rcases List.mem_cons.mp hc with h1 | h1
      · rw [h1]
        exact digitChar_numeric _
      · exact ih _ _ c h1

/-- Every character of the rational rendering is numeric. -/
theorem ratRepr_numeric (q : ℚ) :
    ∀ c ∈ (ratRepr q).data, c ∈ numericChars := by
  intro c hc
  have hc' : c ∈ (if q.num < 0 then ['-'] else []) ++
      (natChars (q.num.natAbs / q.den) ++
        (let fr := fracChars 30 (q.num.natAbs % q.den) q.den
         if fr.isEmpty then [] else '.' :: fr)) := by
    simpa [ratRepr, List.append_assoc] using hc
  rcases List.mem_append.mp hc' with h1 | h1
  · split at h1
    · simp at h1
      rw [h1]
      simp [numericChars]
    · simp at h1
  · rcases List.mem_append.mp h1 with h2 | h2
    · exact natChars_numeric _ c h2
    · simp only at h2
      split at h2
      · simp at h2
      · rcases List.mem_cons.mp h2 with h3 | h3
        · rw [h3]
          simp [numericChars]
        · exact fracChars_numeric _ _ _ c h3

/-- Character view of the `"_wildcat_maps"` literal. -/
@[simp] theorem data_wildcat_maps_tag :
    ("_wildcat_maps" : String).data =
      ['_', 'w', 'i', 'l', 'd', 'c', 'a', 't', '_', 'm', 'a', 'p', 's'] :=
  rfl

/-- Character view of the `"_alpha"` literal. -/
@[simp] theorem data_alpha_tag :
    ("_alpha" : String).data = ['_', 'a', 'l', 'p', 'h', 'a'] := rfl

/-- Character view of the `"_k"` literal. -/
@[simp] theorem data_k_tag : ("_k" : String).data = ['_', 'k'] := rfl

/-- An optional tag factor of the run name: when enabled it contributes
`seg` followed by the `'_'` that separates it from the rest. -/
def optTag (b : Bool) (seg l : List Char) : List Char :=
  if b then seg ++ '_' :: l else l

/-- A separator-free part of an optional-tag factor avoiding the tag
text lies in the rest. -/
theorem isPart_optTag {w seg l : List Char} (hw : w ≠ [])
    (hsep : '_' ∉ w) (hseg : ¬ w <:+: seg) (b : Bool)
    (h : w <:+: optTag b seg l) : w <:+: l := by
  cases b
  · simpa [optTag] using h
  · have h' : w <:+: seg ++ '_' :: l := by simpa [optTag] using h
    rcases isPart_sep hw hsep h' with h1 | h1
    · exact absurd h1 hseg
    · exact h1

/-- A part of the rest is a part of the optional-tag factor. -/
theorem isPart_optTag_intro {w l : List Char} (seg : List Char)
    (b : Bool) (h : w <:+: l) : w <:+: optTag b seg l := by
  cases b
  · simpa [optTag] using h
  · have : w <:+: seg ++ '_' :: l := isPart_app_right (isPart_cons _ h)
    simpa [optTag] using this

/-- The wildcat tag block of the run name (train.py line 64) as a
string. -/
def wildcatBlockStr (maps : Nat) (alpha : ℚ) (k : Nat) : String :=
  "_wildcat_maps" ++ natRepr maps ++ "_alpha" ++ ratRepr alpha ++
    "_k" ++ natRepr k

/-- The wildcat tag block as a character list. -/
def wcBlockChars (maps : Nat) (alpha : ℚ) (k : Nat) : List Char :=
  ['_', 'w', 'i', 'l', 'd', 'c', 'a', 't', '_', 'm', 'a', 'p', 's'] ++
    natChars maps ++ ['_', 'a', 'l', 'p', 'h', 'a'] ++
    (ratRepr alpha).data ++ ['_', 'k'] ++ natChars k

/-- The two spellings of the wildcat block agree. -/
theorem wildcatBlockStr_data (maps : Nat) (alpha : ℚ) (k : Nat) :
    (wildcatBlockStr maps alpha k).data = wcBlockChars maps alpha k := by
  simp [wildcatBlockStr, wcBlockChars]

/-- Canonical character-list view of the run name, with every literal
`'_'` junction written as `++ '_' ::` so that occurrence questions can
be settled junction by junction. -/
theorem fullMname_data_view (debug : Bool) (data col_name : String)
    (lr : ℚ) (batchsize : Nat) (optim : String)
    (pretrained balanced : Bool) (network : String) (depth : Nat)
    (wildcat : Bool) (maps : Nat) (alpha : ℚ) (k : Nat)
    (mname : String) :
    (fullMname debug data col_name lr batchsize optim pretrained
        balanced network depth wildcat maps alpha k mname).data =
      optTag debug ['d', 'e', 'b', 'u', 'g']
        (data.data ++ '_' :: (col_name.data ++ '_' ::
          (('l' :: 'r' :: (ratRepr lr).data) ++ '_' ::
          (('b' :: 's' :: natChars batchsize) ++ '_' ::
          (optim.data ++ '_' ::
            optTag pretrained ['p', 'r', 'e']
              (optTag balanced ['b', 'a', 'l']
                ((network.data ++ natChars depth) ++
                  ((if wildcat then wcBlockChars maps alpha k else []) ++
                    '_' :: mname.data)))))))) := by
  rcases debug <;> rcases pretrained <;> rcases balanced <;>
    rcases wildcat <;>
    simp [fullMname, optTag, wcBlockChars, List.append_assoc]

/-- The wildcat tag does not occur in the `"debug"` chunk. -/
theorem no_tag_debug_chunk :
    ¬ wildcatTag <:+: ['d', 'e', 'b', 'u', 'g'] := by decide

/-- The wildcat tag does not occur in the `"pre"` chunk. -/
theorem no_tag_pre_chunk : ¬ wildcatTag <:+: ['p', 'r', 'e'] := by decide

/-- The wildcat tag does not occur in the `"bal"` chunk. -/
theorem no_tag_bal_chunk : ¬ wildcatTag <:+: ['b', 'a', 'l'] := by decide

/-- The wildcat tag is non-empty. -/
theorem wildcatTag_ne_nil : wildcatTag ≠ [] := by decide

/-- The wildcat tag contains no separator. -/
theorem underscore_not_mem_wildcatTag : '_' ∉ wildcatTag := by decide

/-- The wildcat tag contains the letter `'w'`. -/
theorem w_mem_wildcatTag : 'w' ∈ wildcatTag := by decide

/-- No character of the wildcat tag is numeric. -/
theorem wildcatTag_not_numeric : ∀ c ∈ wildcatTag, c ∉ numericChars := by
  decide

/-- The wildcat tag does not occur in the learning-rate chunk. -/
theorem no_tag_lr_chunk (lr : ℚ) :
    ¬ wildcatTag <:+: ('l' :: 'r' :: (ratRepr lr).data) := by
  intro h
  have hw : 'w' ∈ ('l' :: 'r' :: (ratRepr lr).data) :=
    mem_of_isPart h w_mem_wildcatTag
  rcases List.mem_cons.mp hw with h1 | hw
  · exact absurd h1 (by decide)
  rcases List.mem_cons.mp hw with h1 | hw
  · exact absurd h1 (by decide)
  · exact absurd (ratRepr_numeric lr 'w' hw) (by decide)

/-- The wildcat tag does not occur in the batch-size chunk. -/
theorem no_tag_bs_chunk (n : Nat) :
    ¬ wildcatTag <:+: ('b' :: 's' :: natChars n) := by
  intro h
  have hw : 'w' ∈ ('b' :: 's' :: natChars n) :=
    mem_of_isPart h w_mem_wildcatTag
  rcases List.mem_cons.mp hw with h1 | hw
  · exact absurd h1 (by decide)
  rcases List.mem_cons.mp hw with h1 | hw
  · exact absurd h1 (by decide)
  · exact absurd (natChars_numeric n 'w' hw) (by decide)

/-- The wildcat tag does not occur in the network+depth chunk when the
network name avoids it: it cannot live in the all-numeric depth digits
nor span into them. -/
theorem no_tag_netdepth_chunk (network : String) (depth : Nat)
    (h4 : ¬ wildcatTag <:+: network.data) :
    ¬ wildcatTag <:+: network.data ++ natChars depth := by
  intro h
  rcases isPart_append_cases h with h1 | h1 |
    ⟨w₁, w₂, hw12, _, hne2, _, hpre⟩
  · exact h4 h1
  · exact absurd (natChars_numeric depth 'w'
      (mem_of_isPart h1 w_mem_wildcatTag)) (by decide)
  · cases w₂ with
    | nil => exact hne2 rfl
    | cons c w₂' =>
      have hcb : c ∈ natChars depth :=
        hpre.sublist.subset (List.mem_cons_self _ _)
      have hcw : c ∈ wildcatTag := by
        rw [hw12]
        exact List.mem_append_right _ (List.mem_cons_self _ _)
      exact absurd (natChars_numeric depth c hcb)
        (wildcatTag_not_numeric c hcw)

/-- With the wildcat flag off, the run name contains the wildcat tag
text only if one of the free-form components does: the builder inserts
no wildcat block, and no occurrence can span the fixed junctions. -/
theorem fullMname_no_wildcat (debug : Bool) (data col_name : String)
    (lr : ℚ) (batchsize : Nat) (optim : String)
    (pretrained balanced : Bool) (network : String) (depth : Nat)
    (maps : Nat) (alpha : ℚ) (k : Nat) (mname : String)
    (h1 : ¬ wildcatTag <:+: data.data)
    (h2 : ¬ wildcatTag <:+: col_name.data)
    (h3 : ¬ wildcatTag <:+: optim.data)
    (h4 : ¬ wildcatTag <:+: network.data)
    (h5 : ¬ wildcatTag <:+: mname.data) :
    ¬ wildcatTag <:+: (fullMname debug data col_name lr batchsize optim
        pretrained balanced network depth false maps alpha k
        mname).data := by
  intro hocc
  have hview := fullMname_data_view debug data col_name lr batchsize
    optim pretrained balanced network depth false maps alpha k mname
  simp only [Bool.false_eq_true, if_false, List.nil_append] at hview
  rw [hview] at hocc
  have hne := wildcatTag_ne_nil
  have hsep := underscore_not_mem_wildcatTag
  have hocc1 := isPart_optTag hne hsep no_tag_debug_chunk debug hocc
  rcases isPart_sep hne hsep hocc1 with h | hocc2
  · exact h1 h
  rcases isPart_sep hne hsep hocc2 with h | hocc3
  · exact h2 h
  rcases isPart_sep hne hsep hocc3 with h | hocc4
  · exact no_tag_lr_chunk lr h
  rcases isPart_sep hne hsep hocc4 with h | hocc5
  · exact no_tag_bs_chunk batchsize h
  rcases isPart_sep hne hsep hocc5 with h | hocc6
  · exact h3 h
  have hocc7 := isPart_optTag hne hsep no_tag_pre_chunk pretrained hocc6
  have hocc8 := isPart_optTag hne hsep no_tag_bal_chunk balanced hocc7
  rcases isPart_sep hne hsep hocc8 with h | hocc9
  · exact no_tag_netdepth_chunk network depth h4 h
  · exact h5 hocc9

/-- C8 (amended): the run-name builder concatenates its components in
the fixed order of train.py lines 58-65, and every enabled optional tag
appears in the result: the debug prefix, the pretrained tag, the
balanced tag, and the full wildcat block. Disabled tags contribute
nothing: with wildcat off the wildcat parameters cannot influence the
name, and the name contains the wildcat tag text only if one of the
free-form components (dataset, column, optimizer, network, name token)
itself contains it — the claim's unconditional exclusion fails for such
components. -/
theorem run_name_builder (debug : Bool) (data col_name : String)
    (lr : ℚ) (batchsize : Nat) (optim : String)
    (pretrained balanced : Bool) (network : String) (depth : Nat)
    (wildcat : Bool) (maps : Nat) (alpha : ℚ) (k : Nat)
    (mname : String) :
    (debug = true → ("debug_" : String).data <:+:
      (fullMname debug data col_name lr batchsize optim pretrained
        balanced network depth wildcat maps alpha k mname).data) ∧
    (pretrained = true → ("_pre" : String).data <:+:
      (fullMname debug data col_name lr batchsize optim pretrained
        balanced network depth wildcat maps alpha k mname).data) ∧
    (balanced = true → ("_bal" : String).data <:+:
      (fullMname debug data col_name lr batchsize optim pretrained
        balanced network depth wildcat maps alpha k mname).data) ∧
    (wildcat = true → (wildcatBlockStr maps alpha k).data <:+:
      (fullMname debug data col_name lr batchsize optim pretrained
        balanced network depth wildcat maps alpha k mname).data) ∧
    (wildcat = false → ∀ (maps' : Nat) (alpha' : ℚ) (k' : Nat),
      fullMname debug data col_name lr batchsize optim pretrained
        balanced network depth wildcat maps alpha k mname =
      fullMname debug data col_name lr batchsize optim pretrained
        balanced network depth wildcat maps' alpha' k' mname) ∧
    (wildcat = false →
      ¬ wildcatTag <:+: data.data → ¬ wildcatTag <:+: col_name.data →
      ¬ wildcatTag <:+: optim.data → ¬ wildcatTag <:+: network.data →
      ¬ wildcatTag <:+: mname.data →
      ¬ wildcatTag <:+: (fullMname debug data col_name lr batchsize
        optim pretrained balanced network depth wildcat maps alpha k
        mname).data) := by
  refine ⟨?_, ?_, ?_, ?_, ?_, ?_⟩
  · rintro rfl
    rw [fullMname_data_view]
    exact ⟨[], _, rfl⟩
  · rintro rfl
    rw [fullMname_data_view]
    apply isPart_optTag_intro
    apply isPart_app_right; apply isPart_cons
    apply isPart_app_right; apply isPart_cons
    apply isPart_app_right; apply isPart_cons
    apply isPart_app_right; apply isPart_cons
    apply isPart_app_right
    exact ⟨[], _, rfl⟩
  · rintro rfl
    rw [fullMname_data_view]
    apply isPart_optTag_intro
    apply isPart_app_right; apply isPart_cons
    apply isPart_app_right; apply isPart_cons
    apply isPart_app_right; apply isPart_cons
    apply isPart_app_right; apply isPart_cons
    apply isPart_app_right
    rcases pretrained
    · exact ⟨[], _, rfl⟩
    · apply isPart_cons
      apply isPart_app_right
      exact ⟨[], _, rfl⟩
  · rintro rfl
    rw [fullMname_data_view, wildcatBlockStr_data]
    apply isPart_optTag_intro
    apply isPart_app_right; apply isPart_cons
    apply isPart_app_right; apply isPart_cons
    apply isPart_app_right; apply isPart_cons
    apply isPart_app_right; apply isPart_cons
    apply isPart_app_right; apply isPart_cons
    apply isPart_optTag_intro
    apply isPart_optTag_intro
    apply isPart_app_right
    exact ⟨[], _, rfl⟩
  · rintro rfl
    intro maps' alpha' k'
    simp [fullMname]
  · rintro rfl
    intro h1 h2 h3 h4 h5
    exact fullMname_no_wildcat debug data col_name lr batchsize optim
      pretrained balanced network depth maps alpha k mname h1 h2 h3 h4 h5

/-- Witness for `run_name_builder`: at a concrete hyperparameter
combination the enabled tags occur, a wildcat-disabled name with clean
components avoids the wildcat tag, and a wildcat-enabled name contains
the full block. -/
theorem run_name_builder_witness :
    ("debug_" : String).data <:+:
      (fullMname true "rsna" "Target" 1 32 "sgd" true true "densenet"
        121 false 4 0 1 "word").data ∧
    ("_pre" : String).data <:+:
      (fullMname true "rsna" "Target" 1 32 "sgd" true true "densenet"
        121 false 4 0 1 "word").data ∧
    ("_bal" : String).data <:+:
      (fullMname true "rsna" "Target" 1 32 "sgd" true true "densenet"
        121 false 4 0 1 "word").data ∧
    ¬ wildcatTag <:+:
      (fullMname true "rsna" "Target" 1 32 "sgd" true true "densenet"
        121 false 4 0 1 "word").data ∧
    (wildcatBlockStr 4 0 1).data <:+:
      (fullMname true "rsna" "Target" 1 32 "sgd" true true "densenet"
        121 true 4 0 1 "word").data :=
  ⟨(run_name_builder true "rsna" "Target" 1 32 "sgd" true true
      "densenet" 121 false 4 0 1 "word").1 rfl,
   (run_name_builder true "rsna" "Target" 1 32 "sgd" true true
      "densenet" 121 false 4 0 1 "word").2.1 rfl,
   (run_name_builder true "rsna" "Target" 1 32 "sgd" true true
      "densenet" 121 false 4 0 1 "word").2.2.1 rfl,
   (run_name_builder true "rsna" "Target" 1 32 "sgd" true true
      "densenet" 121 false 4 0 1 "word").2.2.2.2.2 rfl (by decide)
      (by decide) (by decide) (by decide) (by decide),
   (run_name_builder true "rsna" "Target" 1 32 "sgd" true true
      "densenet" 121 true 4 0 1 "word").2.2.2.1 rfl⟩

/-- C8 counterexample: with the wildcat flag off but the dataset named
`"wildcat"`, the run name does contain the wildcat tag text, refuting
the claim that wildcat-disabled runs never contain a wildcat tag
substring. -/
theorem wildcat_tag_in_disabled_run_name :
    wildcatTag <:+:
      (fullMname false "wildcat" "Target" 1 32 "sgd" false false
        "densenet" 121 false 4 0 1 "word").data := by
  decide
